import Mathlib

/-!
# FinAgent core: shallow embedding and verification

This file embeds the orchestration and safety-control layer of the FinAgent
repository in Lean 4 and proves properties of its operations:

* transaction limits (src/agent/transaction_limits.py)
* the approval gate (src/agent/conscious_pause.py)
* the error-recovery engine (src/agent/error_recovery.py)
* the element cache (src/agent/element_cache.py)
* the key-rotating vision client (src/agent/vision.py, src/agent/config.py)
* the task orchestrator (src/agent/orchestrator.py)

Python floats standing for money amounts are modelled as rationals; wall-clock
instants are modelled as explicit numeric parameters.  Fields that are pure
presentation (formatted description strings, screenshots, log output) are
omitted from the state records; every field that any operation branches on is
kept.
-/

namespace FinAgent

/-- Lower-casing of a string, modelling Python str.lower on the
alphabetic content the repository matches against. -/
def lowerStr (s : String) : String :=
  String.mk (s.data.map Char.toLower)

/-- Python str.strip: remove leading and trailing whitespace. -/
def pyStrip (s : String) : String :=
  String.mk
    (((s.data.dropWhile Char.isWhitespace).reverse.dropWhile
      Char.isWhitespace).reverse)

/-- Substring test, modelling the Python expression kw in s. -/
def strContains (s pat : String) : Bool :=
  decide (pat.toList <:+: s.toList)

/-- Python dict assignment d[k] = v on an insertion-ordered dict: replace the
value in place when the key is present, append otherwise. -/
def pyDictInsert {β : Type} (k : String) (v : β) :
    List (String × β) → List (String × β)
  | [] => [(k, v)]
  | p :: rest => if p.1 = k then (k, v) :: rest else p :: pyDictInsert k v rest

/-- Python dict lookup d.get(k) / k in d. -/
def findVal {β : Type} (k : String) (m : List (String × β)) : Option β :=
  (m.find? (fun p => p.1 == k)).map (·.2)

/-- Python del d[k] on an insertion-ordered dict with unique keys. -/
def eraseKey {β : Type} (k : String) :
    List (String × β) → List (String × β)
  | [] => []
  | p :: rest => if p.1 = k then rest else p :: eraseKey k rest

/-! ## Transaction limits (src/agent/transaction_limits.py) -/

/-- A calendar instant as the Python code observes it: an absolute day number
(with day 0 falling on a Monday, so that weekday = day mod 7), plus the
calendar month and year fields read by the monthly window. -/
structure PyDate where
  day : Int
  month : Int
  year : Int
deriving DecidableEq

/-- LimitType enumeration. -/
inductive LimitType
  | single
  | daily
  | weekly
  | monthly
deriving DecidableEq

/-- LimitConfig dataclass. -/
structure LimitConfig where
  single_limit : ℚ
  daily_limit : ℚ
  weekly_limit : Option ℚ := none
  monthly_limit : Option ℚ := none
  requires_2fa_above : Option ℚ := none
deriving DecidableEq

/-- TransactionRecord dataclass. -/
structure TransactionRecord where
  action : String
  amount : ℚ
  timestamp : PyDate
  success : Bool
deriving DecidableEq

/-- LimitCheckResult dataclass (the formatted reason string is omitted). -/
structure LimitCheckResult where
  allowed : Bool
  limit_type : Option LimitType := none
  limit_value : Option ℚ := none
  current_usage : Option ℚ := none
  remaining : Option ℚ := none
  requires_2fa : Bool := false
deriving DecidableEq

/-- TransactionLimits state: per-action configuration and the ledger. -/
structure TransactionLimits where
  limits : List (String × LimitConfig)
  transactions : List TransactionRecord
deriving DecidableEq

/-- Monday anchoring the week containing today (today - today.weekday()). -/
def weekStart (today : PyDate) : Int :=
  today.day - today.day.emod 7

/-- Contribution of one ledger record to the usage of a window: the amount
when the record is a successful transaction of the action falling in the
window, zero otherwise (the loop body of _get_usage). -/
def txContrib (action period : String) (today : PyDate)
    (tx : TransactionRecord) : ℚ :=
  if tx.action ≠ action ∨ tx.success = false then 0
  else if period = "daily" ∧ tx.timestamp.day = today.day then tx.amount
  else if period = "weekly" ∧ weekStart today ≤ tx.timestamp.day then
    tx.amount
  else if period = "monthly" ∧ tx.timestamp.year = today.year ∧
      tx.timestamp.month = today.month then
    tx.amount
  else 0

/-- TransactionLimits._get_usage: sum the successful recorded amounts of the
action inside the window anchored at today. -/
def getUsage (tl : TransactionLimits) (action : String) (period : String)
    (today : PyDate) : ℚ :=
  tl.transactions.foldl
    (fun total tx => total + txContrib action period today tx) 0

/-- Body of TransactionLimits.check_limit once the configuration of the
action has been found. -/
def check_limit_config (tl : TransactionLimits) (action : String) (amount : ℚ)
    (today : PyDate) (config : LimitConfig) : LimitCheckResult :=
  if 0 < config.single_limit ∧ config.single_limit < amount then
      { allowed := false
        limit_type := some .single
        limit_value := some config.single_limit
        current_usage := some amount
        remaining := some 0 }
    else if 0 < config.daily_limit ∧
        config.daily_limit < getUsage tl action "daily" today + amount then
      { allowed := false
        limit_type := some .daily
        limit_value := some config.daily_limit
        current_usage := some (getUsage tl action "daily" today)
        remaining := some (max 0 (config.daily_limit -
          getUsage tl action "daily" today)) }
    else if ∃ w, config.weekly_limit = some w ∧ 0 < w ∧ w ≠ 0 ∧
        w < getUsage tl action "weekly" today + amount then
      { allowed := false
        limit_type := some .weekly
        limit_value := config.weekly_limit
        current_usage := some (getUsage tl action "weekly" today)
        remaining := some (max 0 ((config.weekly_limit.getD 0) -
          getUsage tl action "weekly" today)) }
    else if ∃ m, config.monthly_limit = some m ∧ 0 < m ∧ m ≠ 0 ∧
        m < getUsage tl action "monthly" today + amount then
      { allowed := false
        limit_type := some .monthly
        limit_value := config.monthly_limit
        current_usage := some (getUsage tl action "monthly" today)
        remaining := some (max 0 ((config.monthly_limit.getD 0) -
          getUsage tl action "monthly" today)) }
    else
      { allowed := true
        limit_type := some .single
        limit_value := some config.single_limit
        current_usage := some (getUsage tl action "daily" today)
        remaining :=
          if 0 < config.daily_limit then
            some (config.daily_limit - getUsage tl action "daily" today)
          else none
        requires_2fa :=
          match config.requires_2fa_above with
          | some t => decide (t < amount)
          | none => false }

/-- TransactionLimits.check_limit, with the implicit now made explicit:
allowed unconditionally for an unconfigured action, else the cascade of
limit checks. -/
def check_limit (tl : TransactionLimits) (action : String) (amount : ℚ)
    (today : PyDate) : LimitCheckResult :=
  match findVal action tl.limits with
  | none => { allowed := true }
  | some config => check_limit_config tl action amount today config

lemma check_limit_of_findVal {tl : TransactionLimits} {action : String}
    {config : LimitConfig} (amount : ℚ) (today : PyDate)
    (h : findVal action tl.limits = some config) :
    check_limit tl action amount today =
      check_limit_config tl action amount today config := by
  simp [check_limit, h]

/-- TransactionLimits.record_transaction: append unconditionally, then keep
only the last 1000 records. -/
def record_transaction (tl : TransactionLimits) (action : String) (amount : ℚ)
    (today : PyDate) (success : Bool) : TransactionLimits :=
  let txs := tl.transactions ++
    [{ action := action, amount := amount, timestamp := today,
       success := success }]
  { tl with transactions :=
      if 1000 < txs.length then txs.drop (txs.length - 1000) else txs }

/-! ## Approval gate (src/agent/conscious_pause.py, src/agent/config.py) -/

/-- ApprovalStatus enumeration. -/
inductive ApprovalStatus
  | pending
  | approved
  | rejected
  | timeout
deriving DecidableEq

/-- One row of the ACTIONS policy table in config.py. -/
structure ActionInfo where
  risk_level : String
  requires_approval : Bool
deriving DecidableEq

/-- The ACTIONS table from config.py. -/
def ACTIONS : List (String × ActionInfo) :=
  [ ("login", ⟨"low", false⟩)
  , ("check_balance", ⟨"low", false⟩)
  , ("pay_bill", ⟨"high", true⟩)
  , ("fund_transfer", ⟨"high", true⟩)
  , ("buy_gold", ⟨"high", true⟩)
  , ("view_profile", ⟨"low", false⟩)
  , ("update_profile", ⟨"medium", true⟩)
  , ("view_transactions", ⟨"low", false⟩) ]

/-- ApprovalRequest dataclass (description, screenshot and creation timestamp
are presentation-only and omitted; every branch in the code reads the fields
kept here). -/
structure ApprovalRequest where
  id : String
  action : String
  parameters : List (String × String)
  risk_level : String
  status : ApprovalStatus
deriving DecidableEq

/-- ConciousPause state (class name spelled as in the source). -/
structure ConciousPause where
  pending_requests : List (String × ApprovalRequest)
  approval_history : List ApprovalRequest
  request_counter : Nat
deriving DecidableEq

/-- The request id format APR-0000 with a four-digit zero-padded counter. -/
def fmtRequestId (n : Nat) : String :=
  let s := toString n
  "APR-" ++ String.mk (List.replicate (4 - s.length) '0') ++ s

/-- ConciousPause.requires_approval. -/
def requires_approval (action : String) : Bool :=
  match findVal action ACTIONS with
  | some info => info.requires_approval
  | none =>
      ["pay_bill", "fund_transfer", "buy_gold", "update_profile"].contains
        action

/-- ConciousPause.request_approval: allocate the next id and store the new
request in the pending map. -/
def request_approval (cp : ConciousPause) (action : String)
    (parameters : List (String × String)) : ConciousPause × ApprovalRequest :=
  let counter := cp.request_counter + 1
  let rid := fmtRequestId counter
  let req : ApprovalRequest :=
    { id := rid
      action := action
      parameters := parameters
      risk_level := ((findVal action ACTIONS).map (·.risk_level)).getD "high"
      status := .pending }
  ({ cp with
      request_counter := counter
      pending_requests := pyDictInsert rid req cp.pending_requests }, req)

/-- ConciousPause.approve: set the status of a still-pending request in place
and report whether the id was pending.  The request is not moved to history. -/
def approve (cp : ConciousPause) (request_id : String) : ConciousPause × Bool :=
  match findVal request_id cp.pending_requests with
  | some req =>
      let req1 := { req with status := ApprovalStatus.approved }
      ({ cp with pending_requests :=
          pyDictInsert request_id req1 cp.pending_requests }, true)
  | none => (cp, false)

/-- ConciousPause.reject, the mirror image of approve. -/
def reject (cp : ConciousPause) (request_id : String) : ConciousPause × Bool :=
  match findVal request_id cp.pending_requests with
  | some req =>
      let req1 := { req with status := ApprovalStatus.rejected }
      ({ cp with pending_requests :=
          pyDictInsert request_id req1 cp.pending_requests }, true)
  | none => (cp, false)

/-- The three ways the race inside wait_for_approval can resolve: the decision
callback (or console input) returns a boolean, or the timeout fires. -/
inductive WaitOutcome
  | approvedCb
  | rejectedCb
  | timedOut
deriving DecidableEq

/-- ConciousPause.wait_for_approval: assign the terminal status dictated by
the resolution, append the request to history, and drop its id from the
pending map. -/
def wait_for_approval (cp : ConciousPause) (req : ApprovalRequest)
    (outcome : WaitOutcome) : ConciousPause × ApprovalStatus :=
  let status : ApprovalStatus :=
    match outcome with
    | .approvedCb => .approved
    | .rejectedCb => .rejected
    | .timedOut => .timeout
  let req1 := { req with status := status }
  ({ cp with
      approval_history := cp.approval_history ++ [req1]
      pending_requests := eraseKey req.id cp.pending_requests }, status)

/-! ## Error recovery (src/agent/error_recovery.py) -/

/-- ErrorTier enumeration. -/
inductive ErrorTier
  | tier1Auto
  | tier2User
  | tier3Abort
deriving DecidableEq

/-- ErrorType enumeration. -/
inductive ErrorType
  | slow_load
  | element_not_found
  | popup_interrupt
  | session_timeout
  | network_error
  | invalid_amount
  | insufficient_balance
  | captcha_required
  | otp_required
  | verification_needed
  | account_locked
  | security_block
  | critical_failure
  | max_retries_exceeded
deriving DecidableEq

/-- The ordered keyword taxonomy self.error_keywords (dict literal order). -/
def errorKeywords : List (ErrorType × List String) :=
  [ (.slow_load, ["timeout", "loading", "slow", "network"])
  , (.element_not_found, ["not found", "element", "selector", "locate"])
  , (.popup_interrupt, ["popup", "modal", "dialog", "overlay"])
  , (.session_timeout, ["session", "expired", "login", "authenticate"])
  , (.invalid_amount, ["invalid", "amount", "format", "number"])
  , (.insufficient_balance, ["insufficient", "balance", "funds", "low"])
  , (.captcha_required, ["captcha", "verify", "robot", "human"])
  , (.otp_required, ["otp", "verification code", "sms", "2fa"])
  , (.account_locked, ["locked", "blocked", "suspended", "disabled"])
  , (.security_block, ["security", "fraud", "suspicious", "unusual"]) ]

/-- The static kind-to-tier table self.error_tiers. -/
def errorTier : ErrorType → ErrorTier
  | .slow_load => .tier1Auto
  | .element_not_found => .tier1Auto
  | .popup_interrupt => .tier1Auto
  | .session_timeout => .tier1Auto
  | .network_error => .tier1Auto
  | .invalid_amount => .tier2User
  | .insufficient_balance => .tier2User
  | .captcha_required => .tier2User
  | .otp_required => .tier2User
  | .verification_needed => .tier2User
  | .account_locked => .tier3Abort
  | .security_block => .tier3Abort
  | .critical_failure => .tier3Abort
  | .max_retries_exceeded => .tier3Abort

/-- ErrorContext dataclass (screenshot omitted). -/
structure ErrorContext where
  error_type : ErrorType
  tier : ErrorTier
  message : String
  action : String
  retry_count : Nat := 0
  max_retries : Nat := 3
  can_recover : Bool := true
  user_message : Option String := none
deriving DecidableEq

/-- Number of taxonomy keywords of one entry occurring in the message. -/
def keywordMatches (errorLower : String) (kws : List String) : Nat :=
  kws.countP (fun kw => strContains errorLower kw)

/-- ErrorRecovery.classify_error: best-match scan over the ordered keyword
taxonomy, defaulting to CRITICAL_FAILURE, then tier lookup. -/
def classify_error (error_message : String) (action : String) : ErrorContext :=
  let errorLower := lowerStr error_message
  let detected :=
    (errorKeywords.foldl
      (fun best entry =>
        let numMatches := keywordMatches errorLower entry.2
        if best.2 < numMatches then (entry.1, numMatches) else best)
      (ErrorType.critical_failure, 0)).1
  let tier := errorTier detected
  { error_type := detected
    tier := tier
    message := error_message
    action := action
    can_recover := tier ≠ .tier3Abort }

/-- Result of one attempt_recovery call: the (success, result) pair returned,
the context as mutated by the call, and whether the retry action was invoked
at all. -/
structure RecoveryOutcome (α : Type) where
  success : Bool
  result : Option α
  ctx : ErrorContext
  retryInvoked : Bool
deriving DecidableEq

/-- The per-kind user messages of _tier2_recovery. -/
def tier2UserMessage (t : ErrorType) (message : String) : String :=
  match t with
  | .invalid_amount => "Please enter a valid amount"
  | .insufficient_balance =>
      "Insufficient balance. Would you like to proceed with a smaller amount?"
  | .captcha_required => "Please solve the CAPTCHA shown on screen"
  | .otp_required => "Please enter the OTP sent to your phone"
  | .verification_needed =>
      "Additional verification required. Please check the screen."
  | _ => "User intervention needed: " ++ message

/-- ErrorRecovery._tier1_recovery: bump the retry counter and invoke the retry
action, whose observable behaviour (a result or a raised message) is the
retryResult argument. -/
def tier1_recovery {α : Type} (ctx : ErrorContext)
    (retryResult : Except String α) : RecoveryOutcome α :=
  let ctx1 := { ctx with retry_count := ctx.retry_count + 1 }
  match retryResult with
  | .ok r => ⟨true, some r, ctx1, true⟩
  | .error _ => ⟨false, none, ctx1, true⟩

/-- ErrorRecovery._tier2_recovery: surface the user message; when an
intervention handler is configured and supplies a truthy response, bump the
counter and retry (a raise from the retry is swallowed into (False, None)). -/
def tier2_recovery {α : Type} (ctx : ErrorContext)
    (retryResult : Except String α) (userResponse : Option String) :
    RecoveryOutcome α :=
  let ctx1 := { ctx with
    user_message := some (tier2UserMessage ctx.error_type ctx.message) }
  match userResponse with
  | some resp =>
      if resp ≠ "" then
        let ctx2 := { ctx1 with retry_count := ctx1.retry_count + 1 }
        match retryResult with
        | .ok r => ⟨true, some r, ctx2, true⟩
        | .error _ => ⟨false, none, ctx2, true⟩
      else ⟨false, none, ctx1, false⟩
  | none => ⟨false, none, ctx1, false⟩

/-- ErrorRecovery.attempt_recovery: abort tier returns immediately with no
retry; a spent retry budget reclassifies to MAX_RETRIES_EXCEEDED / abort with
no retry; otherwise dispatch to the tier-specific recovery. -/
def attempt_recovery {α : Type} (ctx : ErrorContext)
    (retryResult : Except String α) (userResponse : Option String) :
    RecoveryOutcome α :=
  if ctx.tier = .tier3Abort then ⟨false, none, ctx, false⟩
  else if ctx.max_retries ≤ ctx.retry_count then
    ⟨false, none,
      { ctx with error_type := .max_retries_exceeded, tier := .tier3Abort },
      false⟩
  else if ctx.tier = .tier1Auto then tier1_recovery ctx retryResult
  else if ctx.tier = .tier2User then
    tier2_recovery ctx retryResult userResponse
  else ⟨false, none, ctx, false⟩

/-- Loop body of ErrorRecovery.with_recovery.  The fuel parameter encodes the
while retry_count <= max_retries guard: the top-level entry point passes
max_retries + 1, exactly the number of iterations the guard admits starting
from retry_count = 0.  acts n is the observable behaviour of the n-th
invocation of the wrapped action (invocations inside attempt_recovery
included); the returned Nat counts invocations actually made. -/
def with_recovery_loop {α : Type} (acts : Nat → Except String α)
    (userResponse : Option String) (action_name : String) (max_retries : Nat) :
    Nat → Nat → Nat → Bool × Option α × Nat
  | 0, _, calls => (false, none, calls)
  | fuel + 1, retryCount, calls =>
    match acts calls with
    | .ok r => (true, some r, calls + 1)
    | .error e =>
      let ctx0 := classify_error e action_name
      let ctx := { ctx0 with retry_count := retryCount,
                             max_retries := max_retries }
      let out := attempt_recovery ctx (acts (calls + 1)) userResponse
      let calls1 := calls + 1 + (if out.retryInvoked then 1 else 0)
      if out.success then (true, out.result, calls1)
      else if out.ctx.tier = .tier3Abort then (false, none, calls1)
      else with_recovery_loop acts userResponse action_name max_retries
        fuel (retryCount + 1) calls1

/-- ErrorRecovery.with_recovery: bounded classify-and-recover loop returning
(succeeded, result) plus the number of action invocations made. -/
def with_recovery {α : Type} (acts : Nat → Except String α)
    (userResponse : Option String) (action_name : String)
    (max_retries : Nat := 3) : Bool × Option α × Nat :=
  with_recovery_loop acts userResponse action_name max_retries
    (max_retries + 1) 0 0

/-! ## Element cache (src/agent/element_cache.py)

The md5-derived page-content digest is opaque to the cache logic, which only
ever compares digests for equality; it is a parameter hashFn of the model.
Wall-clock instants are explicit Nat arguments. -/

/-- CachedElement dataclass. -/
structure CachedElement where
  element_type : String
  description : String
  x : Int
  y : Int
  confidence : ℚ
  selector_hint : Option String
  cached_at : Nat
  page_url : String
  page_hash : String
deriving DecidableEq

/-- ElementCache state: an insertion-ordered map plus counters. -/
structure ElementCache where
  ttl : Nat := 30
  max_entries : Nat := 500
  cache : List (String × CachedElement) := []
  hits : Nat := 0
  misses : Nat := 0
  evictions : Nat := 0
deriving DecidableEq

/-- ElementCache._make_key: normalized page-url / type / description triple. -/
def makeKey (page_url element_desc element_type : String) : String :=
  page_url ++ ":" ++ element_type ++ ":" ++ pyStrip (lowerStr element_desc)

/-- ElementCache._hash_page_content: digest truthy content, else unknown. -/
def hashPageContent (hashFn : String → String) (content : Option String) :
    String :=
  match content with
  | some c => if c = "" then "unknown" else hashFn c
  | none => "unknown"

/-- ElementCache.get: miss on absent key; expire (and evict) on age beyond the
TTL; when truthy page content is supplied, evict and miss on digest mismatch;
otherwise a hit. -/
def cacheGet (hashFn : String → String) (ec : ElementCache) (now : Nat)
    (page_url element_desc element_type : String)
    (page_content : Option String) : Option CachedElement × ElementCache :=
  let key := makeKey page_url element_desc element_type
  match findVal key ec.cache with
  | none => (none, { ec with misses := ec.misses + 1 })
  | some cached =>
    if ec.ttl < now - cached.cached_at then
      (none, { ec with cache := eraseKey key ec.cache,
                       misses := ec.misses + 1 })
    else
      match page_content with
      | some c =>
        if c ≠ "" then
          if cached.page_hash ≠ hashPageContent hashFn (some c) then
            (none, { ec with cache := eraseKey key ec.cache,
                             misses := ec.misses + 1 })
          else (some cached, { ec with hits := ec.hits + 1 })
        else (some cached, { ec with hits := ec.hits + 1 })
      | none => (some cached, { ec with hits := ec.hits + 1 })

/-- Comparison key of the eviction sort: creation time. -/
def byCachedAt (p q : String × CachedElement) : Bool :=
  decide (p.2.cached_at ≤ q.2.cached_at)

/-- The keys _evict_oldest deletes: those of the first max(1, n / 10)
entries of the cache sorted by creation time. -/
def evictKeysOf (ec : ElementCache) : List String :=
  ((ec.cache.mergeSort byCachedAt).take
    (max 1 (ec.cache.length / 10))).map Prod.fst

/-- ElementCache._evict_oldest: delete the keys of the oldest tenth of the
entries (at least one), ordered by creation time. -/
def evictOldest (ec : ElementCache) : ElementCache :=
  if ec.cache.isEmpty then ec
  else
    { ec with
        cache := ec.cache.filter (fun p => ! (evictKeysOf ec).contains p.1)
        evictions := ec.evictions + max 1 (ec.cache.length / 10) }

/-- ElementCache.set: evict when at capacity, then store the entry under the
normalized key. -/
def cacheSet (hashFn : String → String) (ec : ElementCache) (now : Nat)
    (page_url element_desc element_type : String) (x y : Int)
    (confidence : ℚ) (selector_hint : Option String)
    (page_content : Option String) : ElementCache :=
  let ec1 := if ec.max_entries ≤ ec.cache.length then evictOldest ec else ec
  let key := makeKey page_url element_desc element_type
  let elem : CachedElement :=
    { element_type := element_type
      description := element_desc
      x := x
      y := y
      confidence := confidence
      selector_hint := selector_hint
      cached_at := now
      page_url := page_url
      page_hash := hashPageContent hashFn page_content }
  { ec1 with cache := pyDictInsert key elem ec1.cache }

/-- One cacheSet call with all of its arguments, for iterating sequences of
insertions. -/
structure SetOp where
  now : Nat
  page_url : String
  element_desc : String
  element_type : String
  x : Int
  y : Int
  confidence : ℚ
  selector_hint : Option String := none
  page_content : Option String := none

/-- Fold a sequence of set operations over a cache state. -/
def applySets (hashFn : String → String) (ec : ElementCache)
    (ops : List SetOp) : ElementCache :=
  ops.foldl
    (fun acc op =>
      cacheSet hashFn acc op.now op.page_url op.element_desc op.element_type
        op.x op.y op.confidence op.selector_hint op.page_content)
    ec

/-! ## Key-rotating vision client (src/agent/vision.py with config.py) -/

/-- The slice of Config that key rotation reads and writes. -/
structure VisionConfig where
  gemini_api_keys : List String
  current_key_index : Nat := 0
deriving DecidableEq

/-- Config.get_next_api_key: advance the index round-robin over the pool and
return the key there, or None for an empty pool. -/
def get_next_api_key (c : VisionConfig) : Option String × VisionConfig :=
  if c.gemini_api_keys.isEmpty then (none, c)
  else
    let i := (c.current_key_index + 1) % c.gemini_api_keys.length
    (some (c.gemini_api_keys.getD i ""), { c with current_key_index := i })

/-- VisionModule._switch_api_key: true iff a next key was obtained. -/
def switch_api_key (c : VisionConfig) : Bool × VisionConfig :=
  match get_next_api_key c with
  | (some _, c1) => (true, c1)
  | (none, c1) => (false, c1)

/-- Rate-limit classification of an error message inside _call_with_retry. -/
def isRateLimitError (e : String) : Bool :=
  let s := lowerStr e
  strContains s "quota" || strContains s "rate" || strContains s "limit" ||
    strContains s "429"

/-- Model-unavailable classification inside _call_with_retry. -/
def isModelNotFound (e : String) : Bool :=
  let s := lowerStr e
  strContains s "not found" || strContains s "404"

/-- VisionModule state touched by _call_with_retry. -/
structure VisionState where
  cfg : VisionConfig
  current_model_name : String
deriving DecidableEq

/-- The fixed fallback model preference list. -/
def fallbackModels : List String :=
  ["gemini-2.0-flash", "gemini-1.5-flash", "gemini-1.5-pro"]

/-- The for-break fallback scan: switch to the first listed model different
from the current one. -/
def applyModelFallback (s : VisionState) : VisionState :=
  match fallbackModels.find? (fun m => m != s.current_model_name) with
  | some m => { s with current_model_name := m }
  | none => s

/-- State update for one failed attempt of _call_with_retry: a rate-limit
failure rotates the credential (falling through to the model check only when
no pool key is available); a model-unavailable failure switches the model. -/
def handleVisionError (s : VisionState) (e : String) : VisionState :=
  if isRateLimitError e then
    let sw := switch_api_key s.cfg
    if sw.1 then { s with cfg := sw.2 }
    else if isModelNotFound e then applyModelFallback { s with cfg := sw.2 }
    else { s with cfg := sw.2 }
  else if isModelNotFound e then applyModelFallback s
  else s

/-- The attempt loop of _call_with_retry.  outcomes n is the observable
behaviour of the n-th generate_content attempt; the result carries the number
of attempts made and the final state.  Exhausting the loop re-raises the last
error unmodified (or the placeholder when no attempt ran). -/
def callLoop {α : Type} (outcomes : Nat → Except String α) :
    Nat → Nat → Option String → VisionState →
    Except String α × Nat × VisionState
  | 0, attempt, lastError, s =>
      (.error (lastError.getD "Max retries exceeded"), attempt, s)
  | n + 1, attempt, lastError, s =>
    match outcomes attempt with
    | .ok v => (.ok v, attempt + 1, s)
    | .error e =>
        let _ := lastError
        callLoop outcomes n (attempt + 1) (some e) (handleVisionError s e)

/-- VisionModule._call_with_retry with its default max_retries of 3. -/
def call_with_retry {α : Type} (outcomes : Nat → Except String α)
    (s : VisionState) (max_retries : Nat := 3) :
    Except String α × Nat × VisionState :=
  callLoop outcomes max_retries 0 none s

/-! ## Task orchestrator (src/agent/orchestrator.py) -/

/-- TaskStatus enumeration. -/
inductive TaskStatus
  | pending
  | in_progress
  | awaiting_approval
  | completed
  | failed
  | cancelled
deriving DecidableEq

/-- ActionResult as the step-execution delegate returns it. -/
structure ActionResult where
  success : Bool
  message : String
deriving DecidableEq

/-- Observable behaviour of executing one step: a returned ActionResult or a
raised exception message. -/
inductive ExecOutcome
  | res (r : ActionResult)
  | exn (msg : String)
deriving DecidableEq

/-- TaskStep dataclass. -/
structure TaskStep where
  id : Nat
  action : String
  parameters : List (String × String) := []
  status : TaskStatus := .pending
  result : Option ActionResult := none
  error : Option String := none
deriving DecidableEq

/-- Task dataclass (timestamps omitted). -/
structure Task where
  id : String
  original_command : String
  steps : List TaskStep := []
  status : TaskStatus := .pending
  current_step : Nat := 0
deriving DecidableEq

/-- The step loop of TaskOrchestrator._execute_task: execute in order, mark
each step in progress then terminal, and stop at the first failure leaving
later steps untouched.  Returns the processed steps, the task status set by
the loop (failed) if any, and the final current_step counter. -/
def runSteps (exec : TaskStep → ExecOutcome) :
    List TaskStep → Nat → List TaskStep × Option TaskStatus × Nat
  | [], counter => ([], none, counter)
  | step :: rest, counter =>
    let stepIP := { step with status := TaskStatus.in_progress }
    match exec stepIP with
    | .res r =>
      if r.success then
        let step1 := { stepIP with
          status := TaskStatus.completed
          result := some r }
        let out := runSteps exec rest (counter + 1)
        (step1 :: out.1, out.2.1, out.2.2)
      else
        let step1 := { stepIP with
          status := TaskStatus.failed
          result := some r
          error := some r.message }
        (step1 :: rest, some .failed, counter + 1)
    | .exn m =>
        let step1 := { stepIP with
          status := TaskStatus.failed
          error := some m }
        (step1 :: rest, some .failed, counter + 1)

/-- TaskOrchestrator._execute_task: run the loop, then promote a task that is
still in progress to completed. -/
def execute_task (exec : TaskStep → ExecOutcome) (task : Task) : Task :=
  let out := runSteps exec task.steps task.current_step
  { task with
      steps := out.1
      status := match out.2.1 with | some s => s | none => .completed
      current_step := out.2.2 }

/-! ## Supporting lemmas -/

lemma foldl_add_eq_sum {α : Type} (c : α → ℚ) :
    ∀ (l : List α) (init : ℚ),
      l.foldl (fun t x => t + c x) init = init + (l.map c).sum := by
  intro l
  induction l with
  | nil => simp
  | cons x xs ih => intro init; simp [ih, add_assoc]

lemma getUsage_eq_sum (tl : TransactionLimits) (action period : String)
    (today : PyDate) :
    getUsage tl action period today =
      (tl.transactions.map (txContrib action period today)).sum := by
  simp [getUsage, foldl_add_eq_sum]

lemma record_transaction_limits (tl : TransactionLimits) (action : String)
    (amount : ℚ) (today : PyDate) (success : Bool) :
    (record_transaction tl action amount today success).limits = tl.limits :=
  rfl

lemma record_transaction_append (tl : TransactionLimits) (action : String)
    (amount : ℚ) (today : PyDate) (success : Bool)
    (h : tl.transactions.length < 1000) :
    (record_transaction tl action amount today success).transactions =
      tl.transactions ++
        [{ action := action, amount := amount, timestamp := today,
           success := success }] := by
  have hlen : ¬ 1000 <
      (tl.transactions ++
        [({ action := action, amount := amount, timestamp := today,
            success := success } : TransactionRecord)]).length := by
    simp only [List.length_append, List.length_singleton]
    omega
  simp only [record_transaction]
  rw [if_neg hlen]

/-- A sequence of record_transaction calls for one action on one day, given as
(amount, success) pairs. -/
def recordSeq (tl : TransactionLimits) (action : String) (today : PyDate) :
    List (ℚ × Bool) → TransactionLimits
  | [] => tl
  | p :: rest =>
      recordSeq (record_transaction tl action p.1 today p.2) action today rest

lemma recordSeq_limits (action : String) (today : PyDate) :
    ∀ (l : List (ℚ × Bool)) (tl : TransactionLimits),
      (recordSeq tl action today l).limits = tl.limits := by
  intro l
  induction l with
  | nil => intro tl; rfl
  | cons p rest ih =>
      intro tl
      simp [recordSeq, ih, record_transaction_limits]

lemma recordSeq_transactions (action : String) (today : PyDate) :
    ∀ (l : List (ℚ × Bool)) (tl : TransactionLimits),
      tl.transactions.length + l.length ≤ 1000 →
      (recordSeq tl action today l).transactions =
        tl.transactions ++
          l.map (fun p =>
            { action := action, amount := p.1, timestamp := today,
              success := p.2 }) := by
  intro l
  induction l with
  | nil => intro tl _; simp [recordSeq]
  | cons p rest ih =>
      intro tl h
      have hlt : tl.transactions.length < 1000 := by
        simp only [List.length_cons] at h; omega
      have happ := record_transaction_append tl action p.1 today p.2 hlt
      have hlen :
          (record_transaction tl action p.1 today p.2).transactions.length
            + rest.length ≤ 1000 := by
        rw [happ]
        simp only [List.length_append, List.length_singleton]
        simp only [List.length_cons] at h
        omega
      simp [recordSeq, ih _ hlen, happ, List.append_assoc]

/-! ## Claim theorems -/

/-- Claim C5: for every configured action, check_limit evaluates the limits in
the fixed order single, daily, weekly, monthly and reports the first violated
kind; in particular a single-transaction violation is reported as kind single
with no condition on the cumulative windows, and with no violation the result
is allowed. -/
theorem claim_C5 (tl : TransactionLimits) (action : String) (amount : ℚ)
    (today : PyDate) (config : LimitConfig)
    (hcfg : findVal action tl.limits = some config) :
    ((0 < config.single_limit ∧ config.single_limit < amount) →
      (check_limit tl action amount today).allowed = false ∧
      (check_limit tl action amount today).limit_type =
        some LimitType.single) ∧
    (¬ (0 < config.single_limit ∧ config.single_limit < amount) →
      (0 < config.daily_limit ∧ config.daily_limit <
        getUsage tl action "daily" today + amount) →
      (check_limit tl action amount today).allowed = false ∧
      (check_limit tl action amount today).limit_type =
        some LimitType.daily) ∧
    (¬ (0 < config.single_limit ∧ config.single_limit < amount) →
      ¬ (0 < config.daily_limit ∧ config.daily_limit <
        getUsage tl action "daily" today + amount) →
      (∃ w, config.weekly_limit = some w ∧ 0 < w ∧ w ≠ 0 ∧
        w < getUsage tl action "weekly" today + amount) →
      (check_limit tl action amount today).allowed = false ∧
      (check_limit tl action amount today).limit_type =
        some LimitType.weekly) ∧
    (¬ (0 < config.single_limit ∧ config.single_limit < amount) →
      ¬ (0 < config.daily_limit ∧ config.daily_limit <
        getUsage tl action "daily" today + amount) →
      ¬ (∃ w, config.weekly_limit = some w ∧ 0 < w ∧ w ≠ 0 ∧
        w < getUsage tl action "weekly" today + amount) →
      (∃ m, config.monthly_limit = some m ∧ 0 < m ∧ m ≠ 0 ∧
        m < getUsage tl action "monthly" today + amount) →
      (check_limit tl action amount today).allowed = false ∧
      (check_limit tl action amount today).limit_type =
        some LimitType.monthly) ∧
    (¬ (0 < config.single_limit ∧ config.single_limit < amount) →
      ¬ (0 < config.daily_limit ∧ config.daily_limit <
        getUsage tl action "daily" today + amount) →
      ¬ (∃ w, config.weekly_limit = some w ∧ 0 < w ∧ w ≠ 0 ∧
        w < getUsage tl action "weekly" today + amount) →
      ¬ (∃ m, config.monthly_limit = some m ∧ 0 < m ∧ m ≠ 0 ∧
        m < getUsage tl action "monthly" today + amount) →
      (check_limit tl action amount today).allowed = true) := by
  rw [check_limit_of_findVal amount today hcfg]
  unfold check_limit_config
  refine ⟨fun h1 => ?_, fun h1 h2 => ?_, fun h1 h2 h3 => ?_,
    fun h1 h2 h3 h4 => ?_, fun h1 h2 h3 h4 => ?_⟩ <;>
    simp only [if_pos, if_neg, *] <;> simp [*]

/-- Concrete fund-transfer configuration for witnesses (values from
DEFAULT_LIMITS). -/
def witCfg : LimitConfig :=
  { single_limit := 100000
    daily_limit := 500000
    weekly_limit := some 1000000
    monthly_limit := some 2000000
    requires_2fa_above := some 50000 }

/-- A concrete day. -/
def witDay : PyDate := ⟨0, 1, 2026⟩

/-- A limiter whose ledger already holds a successful transaction at the
daily cap, so both the single and the daily check are violated for a large
amount. -/
def witTlC5 : TransactionLimits :=
  ⟨[("fund_transfer", witCfg)], [⟨"fund_transfer", 500000, witDay, true⟩]⟩

/-- Witness for C5: a transaction violating the single cap while the daily
window is also exhausted is still reported as kind single. -/
theorem claim_C5_witness :
    (0 < witCfg.daily_limit ∧ witCfg.daily_limit <
      getUsage witTlC5 "fund_transfer" "daily" witDay + 200000) ∧
    (check_limit witTlC5 "fund_transfer" 200000 witDay).allowed = false ∧
    (check_limit witTlC5 "fund_transfer" 200000 witDay).limit_type =
      some LimitType.single :=
  ⟨by norm_num [witCfg, witTlC5, getUsage, txContrib, witDay],
    (claim_C5 witTlC5 "fund_transfer" 200000 witDay witCfg rfl).1
      (by norm_num [witCfg])⟩

lemma check_limit_congr (tl1 tl2 : TransactionLimits) (action : String)
    (amount : ℚ) (today : PyDate) (ha : tl1.limits = tl2.limits)
    (hu : ∀ p, getUsage tl1 action p today = getUsage tl2 action p today) :
    check_limit tl1 action amount today = check_limit tl2 action amount today
    := by
  unfold check_limit check_limit_config
  rw [ha, hu "daily", hu "weekly", hu "monthly"]

/-- Claim C4: record_transaction appends for both outcomes, but only
successful records count toward usage: N successful records of size A with
N * A the daily cap make any further positive amount (not caught by the
single cap) denied with kind daily, while the same records as failures leave
the verdict identical to the empty ledger, hence allowed given headroom in
the other windows. -/
theorem claim_C4 (limits : List (String × LimitConfig)) (action : String)
    (config : LimitConfig) (N : Nat) (A amount : ℚ) (today : PyDate)
    (hcfg : findVal action limits = some config)
    (hN : N ≤ 1000)
    (hcap : (N : ℚ) * A = config.daily_limit)
    (hpos : 0 < config.daily_limit)
    (hamt : 0 < amount)
    (hsingle : ¬ (0 < config.single_limit ∧ config.single_limit < amount)) :
    (∀ (tl : TransactionLimits) (amt : ℚ) (succ : Bool),
        tl.transactions.length < 1000 →
        (record_transaction tl action amt today succ).transactions =
          tl.transactions ++ [⟨action, amt, today, succ⟩]) ∧
    ((check_limit (recordSeq ⟨limits, []⟩ action today
        (List.replicate N (A, true))) action amount today).allowed = false ∧
      (check_limit (recordSeq ⟨limits, []⟩ action today
        (List.replicate N (A, true))) action amount today).limit_type =
        some LimitType.daily) ∧
    (check_limit (recordSeq ⟨limits, []⟩ action today
        (List.replicate N (A, false))) action amount today =
      check_limit ⟨limits, []⟩ action amount today) ∧
    (amount ≤ config.daily_limit →
      (∀ w, config.weekly_limit = some w → 0 < w → amount ≤ w) →
      (∀ m, config.monthly_limit = some m → 0 < m → amount ≤ m) →
      (check_limit (recordSeq ⟨limits, []⟩ action today
        (List.replicate N (A, false))) action amount today).allowed = true)
    := by
  have htS : (recordSeq ⟨limits, []⟩ action today
      (List.replicate N (A, true))).transactions =
      List.replicate N ⟨action, A, today, true⟩ := by
    rw [recordSeq_transactions action today (List.replicate N (A, true))
      ⟨limits, []⟩ (by simpa using hN)]
    simp [List.map_replicate]
  have htF : (recordSeq ⟨limits, []⟩ action today
      (List.replicate N (A, false))).transactions =
      List.replicate N ⟨action, A, today, false⟩ := by
    rw [recordSeq_transactions action today (List.replicate N (A, false))
      ⟨limits, []⟩ (by simpa using hN)]
    simp [List.map_replicate]
  have hlimS := recordSeq_limits action today
    (List.replicate N (A, true)) ⟨limits, []⟩
  have hlimF := recordSeq_limits action today
    (List.replicate N (A, false)) ⟨limits, []⟩
  have husageS : getUsage (recordSeq ⟨limits, []⟩ action today
      (List.replicate N (A, true))) action "daily" today = (N : ℚ) * A := by
    rw [getUsage_eq_sum, htS]
    simp [txContrib, List.map_replicate, List.sum_replicate, nsmul_eq_mul]
  have husageF : ∀ p, getUsage (recordSeq ⟨limits, []⟩ action today
      (List.replicate N (A, false))) action p today =
      getUsage ⟨limits, []⟩ action p today := by
    intro p
    rw [getUsage_eq_sum, getUsage_eq_sum, htF]
    simp [txContrib, List.map_replicate, List.sum_replicate]
  have husage0 : ∀ p, getUsage ⟨limits, []⟩ action p today = 0 := by
    intro p; rw [getUsage_eq_sum]; simp
  refine ⟨fun tl amt succ h => record_transaction_append tl action amt
    today succ h, ⟨?_, ?_⟩, check_limit_congr _ _ _ _ _ hlimF husageF,
    fun hd hw hm => ?_⟩
  · have hdaily : 0 < config.daily_limit ∧ config.daily_limit <
        getUsage (recordSeq ⟨limits, []⟩ action today
          (List.replicate N (A, true))) action "daily" today + amount := by
      rw [husageS, hcap]
      exact ⟨hpos, by linarith⟩
    rw [check_limit_of_findVal amount today (by rw [hlimS]; exact hcfg)]
    unfold check_limit_config
    rw [if_neg hsingle, if_pos hdaily]
  · have hdaily : 0 < config.daily_limit ∧ config.daily_limit <
        getUsage (recordSeq ⟨limits, []⟩ action today
          (List.replicate N (A, true))) action "daily" today + amount := by
      rw [husageS, hcap]
      exact ⟨hpos, by linarith⟩
    rw [check_limit_of_findVal amount today (by rw [hlimS]; exact hcfg)]
    unfold check_limit_config
    rw [if_neg hsingle, if_pos hdaily]
  · rw [check_limit_congr _ _ _ _ _ hlimF husageF]
    rw [check_limit_of_findVal amount today hcfg]
    unfold check_limit_config
    rw [if_neg hsingle]
    rw [if_neg (by
      rw [husage0]
      rintro ⟨-, hlt⟩
      rw [zero_add] at hlt
      exact absurd hlt (not_lt.mpr hd))]
    rw [if_neg (by
      rw [husage0]
      rintro ⟨w, hweq, hwpos, -, hlt⟩
      rw [zero_add] at hlt
      exact absurd hlt (not_lt.mpr (hw w hweq hwpos)))]
    rw [if_neg (by
      rw [husage0]
      rintro ⟨m, hmeq, hmpos, -, hlt⟩
      rw [zero_add] at hlt
      exact absurd hlt (not_lt.mpr (hm m hmeq hmpos)))]

/-- Witness for C4: five successful 100000 transactions exhaust the 500000
daily cap of the fund-transfer configuration, so a further 40000 is denied
with kind daily; the same five transactions recorded as failures leave the
40000 check allowed. -/
theorem claim_C4_witness :
    (check_limit (recordSeq ⟨[("fund_transfer", witCfg)], []⟩ "fund_transfer"
        witDay (List.replicate 5 ((100000 : ℚ), true))) "fund_transfer"
        40000 witDay).allowed = false ∧
    (check_limit (recordSeq ⟨[("fund_transfer", witCfg)], []⟩ "fund_transfer"
        witDay (List.replicate 5 ((100000 : ℚ), true))) "fund_transfer"
        40000 witDay).limit_type = some LimitType.daily ∧
    (check_limit (recordSeq ⟨[("fund_transfer", witCfg)], []⟩ "fund_transfer"
        witDay (List.replicate 5 ((100000 : ℚ), false))) "fund_transfer"
        40000 witDay).allowed = true := by
  have h := claim_C4 [("fund_transfer", witCfg)] "fund_transfer" witCfg
    5 100000 40000 witDay rfl (by norm_num) (by norm_num [witCfg])
    (by norm_num [witCfg]) (by norm_num) (by norm_num [witCfg])
  exact ⟨h.2.1.1, h.2.1.2,
    h.2.2.2 (by norm_num [witCfg]) (by norm_num [witCfg])
      (by norm_num [witCfg])⟩

/-- The i-th record of the compaction counterexample ledger; the amounts make
all records distinct. -/
def c9rec (i : Nat) : TransactionRecord := ⟨"pay_bill", (i : ℚ), witDay, true⟩

/-- One thousand record_transaction calls. -/
def c9pairs : List (ℚ × Bool) :=
  (List.range 1000).map (fun (i : Nat) => ((i : ℚ), true))

/-- The limiter after appending one thousand distinct successful records. -/
def c9base : TransactionLimits := recordSeq ⟨[], []⟩ "pay_bill" witDay c9pairs

lemma c9pairs_length : c9pairs.length = 1000 := by
  rw [c9pairs, List.length_map, List.length_range]

lemma c9base_transactions :
    c9base.transactions = (List.range 1000).map c9rec := by
  unfold c9base
  rw [recordSeq_transactions "pay_bill" witDay c9pairs ⟨[], []⟩
    (by simp [c9pairs_length])]
  simp only [List.nil_append, c9pairs, List.map_map]
  exact List.map_congr_left fun i _ => rfl

/-- Counterexample to C9: the thousand-and-first append drops the first
record from the ledger, so a previously appended record does not remain. -/
theorem claim_C9_counterexample :
    c9rec 0 ∈ c9base.transactions ∧
    c9rec 0 ∉
      (record_transaction c9base "pay_bill" 1000 witDay true).transactions
    := by
  constructor
  · rw [c9base_transactions]
    exact List.mem_map_of_mem c9rec (by simp)
  · have hlen : 1000 <
        (c9base.transactions ++
          [({ action := "pay_bill", amount := 1000, timestamp := witDay,
              success := true } : TransactionRecord)]).length := by
      rw [c9base_transactions]
      simp
    have hstep : (record_transaction c9base "pay_bill" 1000 witDay
        true).transactions =
        List.map (c9rec ∘ Nat.succ) (List.range 999) ++
          [{ action := "pay_bill", amount := 1000, timestamp := witDay,
             success := true }] := by
      simp only [record_transaction]
      rw [if_pos hlen]
      rw [c9base_transactions]
      rw [show (1000 : Nat) = 999 + 1 from rfl, List.range_succ_eq_map]
      simp [List.map_map]
    rw [hstep]
    intro hmem
    rw [List.mem_append] at hmem
    rcases hmem with hmap | hsing
    · rw [List.mem_map] at hmap
      obtain ⟨i, -, hi⟩ := hmap
      have hamt : ((i + 1 : Nat) : ℚ) = ((0 : Nat) : ℚ) := by
        have := congrArg TransactionRecord.amount hi
        simpa [c9rec, Function.comp, Nat.succ_eq_add_one] using this
      exact absurd (by exact_mod_cast hamt) (Nat.succ_ne_zero i)
    · have := congrArg TransactionRecord.amount (List.mem_singleton.mp hsing)
      simp only [c9rec] at this
      exact absurd this (by norm_num)

/-- Claim C9 (amended): the ledger preserves insertion order of the records
it retains — every append leaves the previous records in place while the
ledger holds fewer than 1000 records, and in general the ledger after an
append is a suffix of the previous ledger with the new record appended, so
records are only ever dropped from the oldest end (compaction to the most
recent 1000), never reordered. -/
theorem claim_C9_amended (tl : TransactionLimits) (action : String)
    (amount : ℚ) (today : PyDate) (success : Bool) :
    (tl.transactions.length < 1000 →
      (record_transaction tl action amount today success).transactions =
        tl.transactions ++ [⟨action, amount, today, success⟩]) ∧
    (record_transaction tl action amount today success).transactions <:+
      tl.transactions ++ [⟨action, amount, today, success⟩] := by
  refine ⟨record_transaction_append tl action amount today success, ?_⟩
  simp only [record_transaction]
  split
  · exact List.drop_suffix _ _
  · exact List.suffix_refl _

/-- Witness for C9 (amended): on a one-record ledger, an append retains the
old record in place. -/
theorem claim_C9_witness :
    (record_transaction ⟨[], [c9rec 0]⟩ "pay_bill" 7 witDay
      false).transactions =
      [c9rec 0] ++ [⟨"pay_bill", 7, witDay, false⟩] :=
  (claim_C9_amended ⟨[], [c9rec 0]⟩ "pay_bill" 7 witDay false).1
    (by norm_num)

lemma foldl_keywords_of_no_match (s : String) :
    ∀ (l : List (ErrorType × List String)) (b : ErrorType × Nat),
      (∀ p ∈ l, keywordMatches s p.2 = 0) →
      l.foldl
        (fun best entry =>
          let numMatches := keywordMatches s entry.2
          if best.2 < numMatches then (entry.1, numMatches) else best) b = b
    := by
  intro l
  induction l with
  | nil => intro b _; rfl
  | cons p rest ih =>
      intro b h
      have hp : keywordMatches s p.2 = 0 := h p (by simp)
      have hrest : ∀ q ∈ rest, keywordMatches s q.2 = 0 :=
        fun q hq => h q (by simp [hq])
      simp only [List.foldl_cons]
      rw [show (let numMatches := keywordMatches s p.2;
          if b.2 < numMatches then (p.1, numMatches) else b) = b by
        simp [hp]]
      exact ih b hrest

/-- Claim C10: an error message containing none of the taxonomy keywords is
classified as critical_failure in the abort tier with can_recover false, and
attempt_recovery on that context never invokes the retry action. -/
theorem claim_C10 {α : Type} (msg action : String) (r : Except String α)
    (u : Option String)
    (h : ∀ p ∈ errorKeywords, ∀ kw ∈ p.2,
      strContains (lowerStr msg) kw = false) :
    classify_error msg action =
      { error_type := .critical_failure
        tier := .tier3Abort
        message := msg
        action := action
        can_recover := false } ∧
    (attempt_recovery (classify_error msg action) r u).retryInvoked = false ∧
    (attempt_recovery (classify_error msg action) r u).success = false := by
  have hmatch : ∀ p ∈ errorKeywords, keywordMatches (lowerStr msg) p.2 = 0 :=
    by
    intro p hp
    unfold keywordMatches
    rw [List.countP_eq_zero]
    intro kw hkw
    simp [h p hp kw hkw]
  have hclass : classify_error msg action =
      { error_type := .critical_failure
        tier := .tier3Abort
        message := msg
        action := action
        can_recover := false } := by
    simp only [classify_error]
    rw [foldl_keywords_of_no_match (lowerStr msg) errorKeywords
      (ErrorType.critical_failure, 0) hmatch]
    rfl
  refine ⟨hclass, ?_, ?_⟩ <;>
    rw [hclass] <;>
    simp [attempt_recovery]

/-- A message containing no taxonomy keyword at all. -/
def c10msg : String := "zzz qqq"

/-- Witness for C10: the concrete unmatched message is classified as an
unrecoverable critical failure and is not retried. -/
theorem claim_C10_witness :
    classify_error c10msg "pay_bill" =
      { error_type := .critical_failure
        tier := .tier3Abort
        message := c10msg
        action := "pay_bill"
        can_recover := false } ∧
    (attempt_recovery (classify_error c10msg "pay_bill")
      (Except.ok (0 : Nat)) none).retryInvoked = false ∧
    (attempt_recovery (classify_error c10msg "pay_bill")
      (Except.ok (0 : Nat)) none).success = false :=
  claim_C10 c10msg "pay_bill" (Except.ok 0) none (by decide)

/-- Claim C3: an abort-tier context is returned unchanged with no retry; a
non-abort context whose budget is spent is reclassified to
max_retries_exceeded / abort with no retry; an auto-tier context with budget
left invokes exactly one retry and increments the counter; classification
starts every failure at retry count 0 with the default cap 3; and
with_recovery stops after a single action invocation when the first failure
classifies into the abort tier. -/
theorem claim_C3 {α : Type} (ctx : ErrorContext) (r : Except String α)
    (u : Option String) :
    (ctx.tier = .tier3Abort →
      attempt_recovery ctx r u = ⟨false, none, ctx, false⟩) ∧
    (ctx.tier ≠ .tier3Abort → ctx.max_retries ≤ ctx.retry_count →
      attempt_recovery ctx r u =
        ⟨false, none,
          { ctx with error_type := .max_retries_exceeded,
                     tier := .tier3Abort }, false⟩) ∧
    (ctx.tier = .tier1Auto → ctx.retry_count < ctx.max_retries →
      (attempt_recovery ctx r u).retryInvoked = true ∧
      (attempt_recovery ctx r u).ctx.retry_count = ctx.retry_count + 1) ∧
    (∀ m a, (classify_error m a).max_retries = 3 ∧
      (classify_error m a).retry_count = 0) ∧
    (∀ (acts : Nat → Except String α) (name : String) (mr : Nat) (e : String),
      acts 0 = .error e → (classify_error e name).tier = .tier3Abort →
      with_recovery acts u name mr = (false, none, 1)) := by
  refine ⟨?_, ?_, ?_, fun m a => ⟨rfl, rfl⟩, ?_⟩
  · intro habort
    unfold attempt_recovery
    rw [if_pos habort]
  · intro hne hspent
    unfold attempt_recovery
    rw [if_neg hne, if_pos hspent]
  · intro hauto hleft
    have hne : ctx.tier ≠ .tier3Abort := by rw [hauto]; decide
    unfold attempt_recovery
    rw [if_neg hne, if_neg (not_le.mpr hleft), if_pos hauto]
    cases r <;> simp [tier1_recovery]
  · intro acts name mr e h0 htier
    have habort : ({ classify_error e name with
        retry_count := 0, max_retries := mr } : ErrorContext).tier =
        .tier3Abort := htier
    unfold with_recovery
    rw [show mr + 1 = (mr + 1 - 1) + 1 by omega]
    unfold with_recovery_loop
    rw [h0]
    simp only [attempt_recovery, if_pos habort]
    simp

/-- An abort-tier context: locked matches the ACCOUNT_LOCKED keywords. -/
def c3abortCtx : ErrorContext := classify_error "account locked" "fund_transfer"

/-- An auto-tier context with untouched budget: timeout and network match the
SLOW_LOAD keywords. -/
def c3autoCtx : ErrorContext := classify_error "network timeout" "pay_bill"

/-- The auto-tier context with its budget spent. -/
def c3spentCtx : ErrorContext := { c3autoCtx with retry_count := 3 }

/-- Witness for C3: the abort context is not retried and unchanged; the fresh
auto context is retried once with its counter bumped; the spent auto context
is reclassified to max_retries_exceeded / abort without retry; with_recovery
on an always-abort failure stops after one invocation. -/
theorem claim_C3_witness :
    attempt_recovery c3abortCtx (Except.ok (5 : Nat)) none =
      ⟨false, none, c3abortCtx, false⟩ ∧
    ((attempt_recovery c3autoCtx (Except.ok (5 : Nat)) none).retryInvoked =
        true ∧
      (attempt_recovery c3autoCtx (Except.ok (5 : Nat)) none).ctx.retry_count =
        c3autoCtx.retry_count + 1) ∧
    attempt_recovery c3spentCtx (Except.ok (5 : Nat)) none =
      ⟨false, none,
        { c3spentCtx with error_type := .max_retries_exceeded,
                          tier := .tier3Abort }, false⟩ ∧
    with_recovery (fun _ => (Except.error "account locked" : Except String Nat))
      none "fund_transfer" 3 = (false, none, 1) :=
  ⟨(claim_C3 c3abortCtx (Except.ok 5) none).1 (by decide),
    (claim_C3 c3autoCtx (Except.ok 5) none).2.2.1 (by decide) (by decide),
    (claim_C3 c3spentCtx (Except.ok 5) none).2.1 (by decide) (by decide),
    (claim_C3 c3abortCtx (Except.ok 5) none).2.2.2.2
      (fun _ => Except.error "account locked") "fund_transfer" 3
      "account locked" rfl (by decide)⟩

lemma callLoop_count_le {α : Type} (outcomes : Nat → Except String α) :
    ∀ (n attempt : Nat) (le : Option String) (s : VisionState),
      (callLoop outcomes n attempt le s).2.1 ≤ attempt + n := by
  intro n
  induction n with
  | zero => intro attempt le s; simp [callLoop]
  | succ n ih =>
      intro attempt le s
      cases houtcome : outcomes attempt with
      | ok v => simp [callLoop, houtcome]
      | error e =>
          simp only [callLoop, houtcome]
          have := ih (attempt + 1) (some e) (handleVisionError s e)
          omega

lemma callLoop_succ_error {α : Type} (outcomes : Nat → Except String α)
    (n attempt : Nat) (le : Option String) (s : VisionState) (e : String)
    (h : outcomes attempt = .error e) :
    callLoop outcomes (n + 1) attempt le s =
      callLoop outcomes n (attempt + 1) (some e) (handleVisionError s e) := by
  conv_lhs => rw [callLoop]
  rw [h]

lemma callLoop_all_fail {α : Type} (outcomes : Nat → Except String α)
    (es : Nat → String) :
    ∀ (n attempt : Nat) (le : Option String) (s : VisionState),
      (∀ i, attempt ≤ i → i < attempt + n → outcomes i = .error (es i)) →
      1 ≤ n →
      (callLoop outcomes n attempt le s).1 = .error (es (attempt + n - 1))
    := by
  intro n
  induction n with
  | zero => intro attempt le s _ h1; omega
  | succ n ih =>
      intro attempt le s hfail _
      have hthis : outcomes attempt = .error (es attempt) :=
        hfail attempt le_rfl (by omega)
      rw [callLoop_succ_error outcomes n attempt le s (es attempt) hthis]
      cases n with
      | zero => simp [callLoop, Nat.add_sub_cancel]
      | succ m =>
          have := ih (attempt + 1) (some (es attempt))
            (handleVisionError s (es attempt))
            (fun i hi hi2 => hfail i (by omega) (by omega)) (by omega)
          have harg : attempt + 1 + (m + 1) - 1 = attempt + (m + 1 + 1) - 1 :=
            by omega
          rw [this, harg]

/-- Counterexample to C6: with a credential pool of one entry, a persistent
rate-limit failure is attempted three times (the max_retries default), not at
most K = 1 times, before the last error is re-raised. -/
theorem claim_C6_counterexample :
    (⟨⟨["k1"], 0⟩, "gemini-3-flash-preview"⟩ :
        VisionState).cfg.gemini_api_keys.length = 1 ∧
    (call_with_retry (fun _ => (Except.error "429" : Except String Nat))
      ⟨⟨["k1"], 0⟩, "gemini-3-flash-preview"⟩).2.1 = 3 ∧
    ¬ ((call_with_retry (fun _ => (Except.error "429" : Except String Nat))
      ⟨⟨["k1"], 0⟩, "gemini-3-flash-preview"⟩).2.1 ≤ 1) := by
  refine ⟨rfl, ?_, ?_⟩ <;> decide

/-- Claim C6 (amended): every rate-limit-classified failure advances the
credential index round-robin before the next attempt (whenever the pool is
nonempty), but the number of attempts is bounded by the max_retries argument
(default 3) regardless of the pool size; when every attempt fails, the error
of the final attempt is re-raised unmodified. -/
theorem claim_C6_amended {α : Type} (outcomes : Nat → Except String α)
    (s : VisionState) (mr : Nat) (es : Nat → String) :
    ((call_with_retry outcomes s mr).2.1 ≤ mr) ∧
    ((∀ i, i < mr → outcomes i = .error (es i)) → 1 ≤ mr →
      (call_with_retry outcomes s mr).1 = .error (es (mr - 1))) ∧
    (∀ e, isRateLimitError e = true → s.cfg.gemini_api_keys ≠ [] →
      (handleVisionError s e).cfg.current_key_index =
        (s.cfg.current_key_index + 1) % s.cfg.gemini_api_keys.length) := by
  refine ⟨?_, ?_, ?_⟩
  · have := callLoop_count_le outcomes mr 0 none s
    simpa [call_with_retry] using this
  · intro hfail h1
    have := callLoop_all_fail outcomes es mr 0 none s
      (fun i _ hi => hfail i (by omega)) h1
    simpa [call_with_retry] using this
  · intro e hrate hne
    have hempty : s.cfg.gemini_api_keys.isEmpty = false := by
      simpa [List.isEmpty_iff] using hne
    simp [handleVisionError, hrate, switch_api_key, get_next_api_key, hempty]

/-- Witness for C6 (amended): a pool of two keys under persistent rate-limit
failures makes exactly the three default attempts, re-raises the final error,
and a single rate-limit failure advances the index from 0 to 1. -/
theorem claim_C6_witness :
    ((call_with_retry (fun _ => (Except.error "quota hit" : Except String Nat))
      ⟨⟨["k1", "k2"], 0⟩, "m"⟩).2.1 ≤ 3) ∧
    ((call_with_retry (fun _ => (Except.error "quota hit" : Except String Nat))
      ⟨⟨["k1", "k2"], 0⟩, "m"⟩).1 = .error "quota hit") ∧
    ((handleVisionError ⟨⟨["k1", "k2"], 0⟩, "m"⟩
      "quota hit").cfg.current_key_index = (0 + 1) % 2) := by
  have h := claim_C6_amended
    (fun _ => (Except.error "quota hit" : Except String Nat))
    ⟨⟨["k1", "k2"], 0⟩, "m"⟩ 3 (fun _ => "quota hit")
  exact ⟨h.1, h.2.1 (fun i _ => rfl) (by omega),
    h.2.2 "quota hit" (by decide) (by decide)⟩

lemma findVal_pyDictInsert_self {β : Type} (k : String) (v : β) :
    ∀ m : List (String × β), findVal k (pyDictInsert k v m) = some v := by
  intro m
  induction m with
  | nil => simp [pyDictInsert, findVal]
  | cons p rest ih =>
      by_cases hp : p.1 = k
      · simp [pyDictInsert, hp, findVal]
      · simp only [pyDictInsert, if_neg hp]
        simp only [findVal, List.find?_cons]
        rw [show (p.1 == k) = false by simp [hp]]
        exact ih

lemma findVal_eq_none_of_not_mem {β : Type} (k : String) :
    ∀ m : List (String × β), k ∉ m.map Prod.fst → findVal k m = none := by
  intro m
  induction m with
  | nil => intro _; rfl
  | cons p rest ih =>
      intro h
      simp only [List.map_cons, List.mem_cons] at h
      push_neg at h
      simp only [findVal, List.find?_cons]
      rw [show (p.1 == k) = false by simp; exact fun hh => h.1 hh.symm]
      exact ih h.2

lemma findVal_eraseKey_self {β : Type} (k : String) :
    ∀ m : List (String × β), (m.map Prod.fst).Nodup →
      findVal k (eraseKey k m) = none := by
  intro m
  induction m with
  | nil => intro _; rfl
  | cons p rest ih =>
      intro hnd
      simp only [List.map_cons, List.nodup_cons] at hnd
      by_cases hp : p.1 = k
      · simp only [eraseKey, if_pos hp]
        exact findVal_eq_none_of_not_mem k rest (hp ▸ hnd.1)
      · simp only [eraseKey, if_neg hp]
        simp only [findVal, List.find?_cons]
        rw [show (p.1 == k) = false by simp [hp]]
        exact ih hnd.2

lemma mem_keys_pyDictInsert {β : Type} (k : String) (v : β) :
    ∀ (m : List (String × β)) (x : String),
      x ∈ (pyDictInsert k v m).map Prod.fst →
      x = k ∨ x ∈ m.map Prod.fst := by
  intro m
  induction m with
  | nil => intro x hx; simpa [pyDictInsert] using hx
  | cons p rest ih =>
      intro x hx
      by_cases hp : p.1 = k
      · simp only [pyDictInsert, if_pos hp, List.map_cons, List.mem_cons]
          at hx
        rcases hx with h | h
        · exact Or.inl h
        · exact Or.inr (by simp [h])
      · simp only [pyDictInsert, if_neg hp, List.map_cons, List.mem_cons]
          at hx
        rcases hx with h | h
        · exact Or.inr (by simp [h])
        · rcases ih x h with h1 | h1
          · exact Or.inl h1
          · exact Or.inr (by simp [h1])

lemma nodup_keys_pyDictInsert {β : Type} (k : String) (v : β) :
    ∀ m : List (String × β), (m.map Prod.fst).Nodup →
      ((pyDictInsert k v m).map Prod.fst).Nodup := by
  intro m
  induction m with
  | nil => intro _; simp [pyDictInsert]
  | cons p rest ih =>
      intro hnd
      simp only [List.map_cons, List.nodup_cons] at hnd
      by_cases hp : p.1 = k
      · simp only [pyDictInsert, if_pos hp, List.map_cons, List.nodup_cons]
        exact ⟨hp ▸ hnd.1, hnd.2⟩
      · simp only [pyDictInsert, if_neg hp, List.map_cons, List.nodup_cons]
        refine ⟨fun hmem => ?_, ih hnd.2⟩
        rcases mem_keys_pyDictInsert k v rest p.1 hmem with h | h
        · exact hp h
        · exact hnd.1 h

lemma nodup_keys_evictOldest (ec : ElementCache)
    (h : (ec.cache.map Prod.fst).Nodup) :
    ((evictOldest ec).cache.map Prod.fst).Nodup := by
  unfold evictOldest
  split
  · exact h
  · exact List.Sublist.nodup
      (List.Sublist.map Prod.fst (List.filter_sublist ec.cache)) h

lemma nodup_keys_cacheSet (hashFn : String → String) (ec : ElementCache)
    (now : Nat) (page desc ty : String) (x y : Int) (conf : ℚ)
    (hint content : Option String) (h : (ec.cache.map Prod.fst).Nodup) :
    (((cacheSet hashFn ec now page desc ty x y conf hint content).cache).map
      Prod.fst).Nodup := by
  unfold cacheSet
  split
  · exact nodup_keys_pyDictInsert _ _ _ (nodup_keys_evictOldest ec h)
  · exact nodup_keys_pyDictInsert _ _ _ h

lemma evictOldest_ttl (ec : ElementCache) : (evictOldest ec).ttl = ec.ttl := by
  unfold evictOldest
  split <;> rfl

lemma cacheSet_ttl (hashFn : String → String) (ec : ElementCache) (now : Nat)
    (page desc ty : String) (x y : Int) (conf : ℚ)
    (hint content : Option String) :
    (cacheSet hashFn ec now page desc ty x y conf hint content).ttl = ec.ttl
    := by
  unfold cacheSet
  split
  · exact evictOldest_ttl ec
  · rfl

lemma cacheSet_cache (hashFn : String → String) (ec : ElementCache)
    (now : Nat) (page desc ty : String) (x y : Int) (conf : ℚ)
    (hint content : Option String) :
    findVal (makeKey page desc ty)
      (cacheSet hashFn ec now page desc ty x y conf hint content).cache =
      some ⟨ty, desc, x, y, conf, hint, now, page,
        hashPageContent hashFn content⟩ := by
  unfold cacheSet
  split <;> exact findVal_pyDictInsert_self _ _ _

/-- Claim C7: a set followed immediately by a get with the same normalized
key (with no content validation or with page content identical to the one
stored) is a hit returning the stored element; a get after more than the TTL
has elapsed is a miss removing the entry; a get with page content hashing
differently from the stored hash is a miss removing the stale entry. -/
theorem claim_C7 (hashFn : String → String) (ec : ElementCache)
    (now t2 : Nat) (page desc ty : String) (x y : Int) (conf : ℚ)
    (hint : Option String) (content : Option String)
    (hnodup : (ec.cache.map Prod.fst).Nodup) :
    ((content = none ∨ ∃ c, content = some c ∧ c ≠ "") →
      (cacheGet hashFn
          (cacheSet hashFn ec now page desc ty x y conf hint content)
          now page desc ty content).1 =
        some ⟨ty, desc, x, y, conf, hint, now, page,
          hashPageContent hashFn content⟩) ∧
    (ec.ttl < t2 - now →
      (cacheGet hashFn
          (cacheSet hashFn ec now page desc ty x y conf hint content)
          t2 page desc ty none).1 = none ∧
      findVal (makeKey page desc ty)
        (cacheGet hashFn
          (cacheSet hashFn ec now page desc ty x y conf hint content)
          t2 page desc ty none).2.cache = none) ∧
    (∀ c c2, content = some c → c ≠ "" → c2 ≠ "" →
      hashFn c2 ≠ hashFn c → t2 - now ≤ ec.ttl →
      (cacheGet hashFn
          (cacheSet hashFn ec now page desc ty x y conf hint content)
          t2 page desc ty (some c2)).1 = none ∧
      findVal (makeKey page desc ty)
        (cacheGet hashFn
          (cacheSet hashFn ec now page desc ty x y conf hint content)
          t2 page desc ty (some c2)).2.cache = none) := by
  have hfv := cacheSet_cache hashFn ec now page desc ty x y conf hint content
  have httlset := cacheSet_ttl hashFn ec now page desc ty x y conf hint
    content
  have hnd := nodup_keys_cacheSet hashFn ec now page desc ty x y conf hint
    content hnodup
  refine ⟨?_, ?_, ?_⟩
  · intro hcontent
    rcases hcontent with h | ⟨c, hc, hne⟩
    · subst h
      simp only [cacheGet, hfv, httlset]
      rw [if_neg (show ¬ ec.ttl < now - now by omega)]
    · subst hc
      simp only [cacheGet, hfv, httlset]
      rw [if_neg (show ¬ ec.ttl < now - now by omega), if_pos hne,
        if_neg (by simp)]
  · intro hexp
    simp only [cacheGet, hfv, httlset]
    rw [if_pos (show ec.ttl < t2 - now from hexp)]
    exact ⟨rfl, findVal_eraseKey_self _ _ hnd⟩
  · intro c c2 hc hcne hc2ne hhash httl
    subst hc
    simp only [cacheGet, hfv, httlset]
    rw [if_neg (show ¬ ec.ttl < t2 - now by omega)]
    rw [if_pos hc2ne]
    rw [if_pos (show (⟨ty, desc, x, y, conf, hint, now, page,
        hashPageContent hashFn (some c)⟩ : CachedElement).page_hash ≠
        hashPageContent hashFn (some c2) by
      simp only [hashPageContent, if_neg hcne, if_neg hc2ne]
      exact fun hh => hhash hh.symm)]
    exact ⟨rfl, findVal_eraseKey_self _ _ hnd⟩

lemma length_pyDictInsert {β : Type} (k : String) (v : β) :
    ∀ m : List (String × β), (pyDictInsert k v m).length ≤ m.length + 1 := by
  intro m
  induction m with
  | nil => simp [pyDictInsert]
  | cons p rest ih =>
      by_cases hp : p.1 = k
      · simp [pyDictInsert, hp]
      · simp only [pyDictInsert, if_neg hp, List.length_cons]
        omega

lemma length_filter_lt {α : Type} (p : α → Bool) :
    ∀ (l : List α) (a : α), a ∈ l → p a = false →
      (l.filter p).length < l.length := by
  intro l
  induction l with
  | nil => intro a ha; cases ha
  | cons x xs ih =>
      intro a ha hpa
      rcases List.mem_cons.mp ha with h | h
      · subst h
        simp only [List.filter_cons, hpa]
        simp only [Bool.false_eq_true, if_false, List.length_cons]
        have := List.length_filter_le p xs
        omega
      · cases hx : p x
        · simp only [List.filter_cons, hx]
          simp only [Bool.false_eq_true, if_false, List.length_cons]
          have := List.length_filter_le p xs
          omega
        · simp only [List.filter_cons, hx, if_true, List.length_cons]
          have := ih a h hpa
          omega

lemma byCachedAt_trans : ∀ a b c : String × CachedElement,
    byCachedAt a b → byCachedAt b c → byCachedAt a c := by
  intro a b c
  simp only [byCachedAt, decide_eq_true_eq]
  omega

lemma byCachedAt_total : ∀ a b : String × CachedElement,
    byCachedAt a b || byCachedAt b a := by
  intro a b
  simp only [byCachedAt]
  by_cases h : a.2.cached_at ≤ b.2.cached_at
  · simp [h]
  · simp [h, le_of_not_le h]

lemma evictOldest_length_lt (ec : ElementCache) (hne : ec.cache ≠ []) :
    (evictOldest ec).cache.length < ec.cache.length := by
  unfold evictOldest
  rw [if_neg (by simpa [List.isEmpty_iff] using hne)]
  have hperm := List.mergeSort_perm ec.cache byCachedAt
  have hSne : ec.cache.mergeSort byCachedAt ≠ [] := by
    intro h0
    have hlen := hperm.length_eq
    rw [h0] at hlen
    exact hne (List.length_eq_zero.mp hlen.symm)
  obtain ⟨a, t, hS⟩ := List.exists_cons_of_ne_nil hSne
  have hmem : a ∈ ec.cache := hperm.mem_iff.mp (by simp [hS])
  have hkey : a.1 ∈ evictKeysOf ec := by
    have hc : ∃ k, max 1 (ec.cache.length / 10) = k + 1 :=
      ⟨max 1 (ec.cache.length / 10) - 1, by omega⟩
    obtain ⟨k, hk⟩ := hc
    unfold evictKeysOf
    rw [hS, hk]
    simp
  apply length_filter_lt _ ec.cache a hmem
  simp [hkey]

lemma evictOldest_max_entries (ec : ElementCache) :
    (evictOldest ec).max_entries = ec.max_entries := by
  unfold evictOldest
  split <;> rfl

lemma cacheSet_max_entries (hashFn : String → String) (ec : ElementCache)
    (now : Nat) (page desc ty : String) (x y : Int) (conf : ℚ)
    (hint content : Option String) :
    (cacheSet hashFn ec now page desc ty x y conf hint content).max_entries =
      ec.max_entries := by
  unfold cacheSet
  split
  · exact evictOldest_max_entries ec
  · rfl

lemma cacheSet_length (hashFn : String → String) (ec : ElementCache)
    (now : Nat) (page desc ty : String) (x y : Int) (conf : ℚ)
    (hint content : Option String) (h1 : 1 ≤ ec.max_entries)
    (h : ec.cache.length ≤ ec.max_entries) :
    (cacheSet hashFn ec now page desc ty x y conf hint content).cache.length
      ≤ ec.max_entries := by
  have hcache : (cacheSet hashFn ec now page desc ty x y conf hint
      content).cache =
      pyDictInsert (makeKey page desc ty)
        ⟨ty, desc, x, y, conf, hint, now, page,
          hashPageContent hashFn content⟩
        (if ec.max_entries ≤ ec.cache.length then evictOldest ec
          else ec).cache := rfl
  rw [hcache]
  split
  · next hcap =>
      have hne : ec.cache ≠ [] := by
        intro h0
        rw [h0] at hcap
        simp at hcap
        omega
      have hev := evictOldest_length_lt ec hne
      have hins := length_pyDictInsert (makeKey page desc ty)
        (⟨ty, desc, x, y, conf, hint, now, page,
          hashPageContent hashFn content⟩ : CachedElement)
        (evictOldest ec).cache
      omega
  · next hcap =>
      have hins := length_pyDictInsert (makeKey page desc ty)
        (⟨ty, desc, x, y, conf, hint, now, page,
          hashPageContent hashFn content⟩ : CachedElement) ec.cache
      omega

lemma applySets_bound (hashFn : String → String) :
    ∀ (ops : List SetOp) (ec : ElementCache), 1 ≤ ec.max_entries →
      ec.cache.length ≤ ec.max_entries →
      (applySets hashFn ec ops).cache.length ≤ ec.max_entries := by
  intro ops
  induction ops with
  | nil => intro ec _ h; simpa [applySets] using h
  | cons op rest ih =>
      intro ec h1 h
      have hstep := cacheSet_length hashFn ec op.now op.page_url
        op.element_desc op.element_type op.x op.y op.confidence
        op.selector_hint op.page_content h1 h
      have hme := cacheSet_max_entries hashFn ec op.now op.page_url
        op.element_desc op.element_type op.x op.y op.confidence
        op.selector_hint op.page_content
      have := ih (cacheSet hashFn ec op.now op.page_url op.element_desc
        op.element_type op.x op.y op.confidence op.selector_hint
        op.page_content) (by omega) (by omega)
      simpa [applySets, hme] using this

lemma evictOldest_cache (ec : ElementCache) (hne : ec.cache.isEmpty = false) :
    (evictOldest ec).cache =
      ec.cache.filter (fun p => ! (evictKeysOf ec).contains p.1) := by
  unfold evictOldest
  rw [if_neg (by simp [hne])]

lemma evictOldest_oldest (ec : ElementCache)
    (hnd : (ec.cache.map Prod.fst).Nodup) :
    ∀ p ∈ ec.cache, p ∉ (evictOldest ec).cache →
      ∀ q ∈ (evictOldest ec).cache, p.2.cached_at ≤ q.2.cached_at := by
  intro p hp hnp q hq
  by_cases hemp : ec.cache.isEmpty
  · rw [show evictOldest ec = ec by unfold evictOldest; rw [if_pos hemp]]
      at hnp
    exact absurd hp hnp
  · rw [evictOldest_cache ec (by simpa using hemp)] at hnp hq
    have hperm := List.mergeSort_perm ec.cache byCachedAt
    have hSnd : ((ec.cache.mergeSort byCachedAt).map Prod.fst).Nodup :=
      (hperm.map Prod.fst).nodup_iff.mpr hnd
    have hpS : p ∈ ec.cache.mergeSort byCachedAt := hperm.mem_iff.mpr hp
    have hpred : p.1 ∈ evictKeysOf ec := by
      by_contra hcon
      exact hnp (List.mem_filter.mpr ⟨hp, by simpa using hcon⟩)
    obtain ⟨p', hp'take, hp'key⟩ := List.mem_map.mp hpred
    have hp'S : p' ∈ ec.cache.mergeSort byCachedAt :=
      List.mem_of_mem_take hp'take
    have hpp : p' = p := List.inj_on_of_nodup_map hSnd hp'S hpS hp'key
    have hpTake : p ∈ (ec.cache.mergeSort byCachedAt).take
        (max 1 (ec.cache.length / 10)) := hpp ▸ hp'take
    have hqmem := List.mem_filter.mp hq
    have hqkey : q.1 ∉ evictKeysOf ec := by
      have := hqmem.2
      simpa using this
    have hqS : q ∈ ec.cache.mergeSort byCachedAt :=
      hperm.mem_iff.mpr hqmem.1
    have hqDrop : q ∈ (ec.cache.mergeSort byCachedAt).drop
        (max 1 (ec.cache.length / 10)) := by
      have hsplit := List.take_append_drop (max 1 (ec.cache.length / 10))
        (ec.cache.mergeSort byCachedAt)
      rcases List.mem_append.mp (by rw [hsplit]; exact hqS) with h | h
      · exact absurd (List.mem_map_of_mem Prod.fst h) hqkey
      · exact h
    have hsorted := List.sorted_mergeSort byCachedAt_trans byCachedAt_total
      ec.cache
    have hsp : ((ec.cache.mergeSort byCachedAt).take
        (max 1 (ec.cache.length / 10)) ++
        (ec.cache.mergeSort byCachedAt).drop
        (max 1 (ec.cache.length / 10))).Pairwise
        (fun a b => byCachedAt a b) := by
      rw [List.take_append_drop]
      exact hsorted
    have hle := (List.pairwise_append.mp hsp).2.2 p hpTake q hqDrop
    simpa [byCachedAt] using hle

/-- Claim C8: a cache built by any sequence of set operations from the empty
state never holds more than max_entries entries (capacity at least one), and
the entries _evict_oldest removes are always chronologically oldest: any
removed entry has creation time at most that of any retained entry. -/
theorem claim_C8 (hashFn : String → String) (ttl maxE : Nat)
    (ops : List SetOp) (hmax : 1 ≤ maxE) :
    (applySets hashFn { ttl := ttl, max_entries := maxE } ops).cache.length
      ≤ maxE ∧
    (∀ ec : ElementCache, (ec.cache.map Prod.fst).Nodup →
      ∀ p ∈ ec.cache, p ∉ (evictOldest ec).cache →
        ∀ q ∈ (evictOldest ec).cache, p.2.cached_at ≤ q.2.cached_at) :=
  ⟨applySets_bound hashFn ops { ttl := ttl, max_entries := maxE } hmax
    (by simp),
   fun ec hnd => evictOldest_oldest ec hnd⟩

/-- A concrete page-content digest for witnesses (the cache only compares
digests for equality). -/
def c7hash : String → String := fun s => s

/-- Witness for C7: on a fresh cache, set then immediate get with the same
content hits; a get 31 seconds later misses and evicts; a get in time but
with different content misses and evicts. -/
theorem claim_C7_witness :
    ((cacheGet c7hash
        (cacheSet c7hash {} 10 "u" "Btn" "button" 5 6 1 none (some "pg"))
        10 "u" "Btn" "button" (some "pg")).1 =
      some ⟨"button", "Btn", 5, 6, 1, none, 10, "u",
        hashPageContent c7hash (some "pg")⟩) ∧
    ((cacheGet c7hash
        (cacheSet c7hash {} 10 "u" "Btn" "button" 5 6 1 none (some "pg"))
        41 "u" "Btn" "button" none).1 = none ∧
      findVal (makeKey "u" "Btn" "button")
        (cacheGet c7hash
          (cacheSet c7hash {} 10 "u" "Btn" "button" 5 6 1 none (some "pg"))
          41 "u" "Btn" "button" none).2.cache = none) ∧
    ((cacheGet c7hash
        (cacheSet c7hash {} 10 "u" "Btn" "button" 5 6 1 none (some "pg"))
        20 "u" "Btn" "button" (some "wx")).1 = none ∧
      findVal (makeKey "u" "Btn" "button")
        (cacheGet c7hash
          (cacheSet c7hash {} 10 "u" "Btn" "button" 5 6 1 none (some "pg"))
          20 "u" "Btn" "button" (some "wx")).2.cache = none) :=
  ⟨(claim_C7 c7hash {} 10 41 "u" "Btn" "button" 5 6 1 none (some "pg")
      (by decide)).1 (Or.inr ⟨"pg", rfl, by decide⟩),
   (claim_C7 c7hash {} 10 41 "u" "Btn" "button" 5 6 1 none (some "pg")
      (by decide)).2.1 (by decide),
   (claim_C7 c7hash {} 10 20 "u" "Btn" "button" 5 6 1 none (some "pg")
      (by decide)).2.2 "pg" "wx" rfl (by decide) (by decide) (by decide)
      (by decide)⟩

/-- A cache entry created at the given time, for the C8 witness. -/
def c8elem (t : Nat) : CachedElement :=
  ⟨"b", "d", 1, 2, 1, none, t, "u", "unknown"⟩

/-- A concrete two-entry cache at capacity. -/
def c8ec : ElementCache :=
  { ttl := 30, max_entries := 2,
    cache := [("k1", c8elem 1), ("k2", c8elem 2)] }

/-- One concrete set operation for the C8 witness. -/
def c8op (n : Nat) (d : String) : SetOp :=
  { now := n, page_url := "u", element_desc := d, element_type := "b",
    x := 1, y := 2, confidence := 1 }

unseal List.merge List.mergeSort in
/-- Witness for C8: three insertions into a capacity-two cache stay within
bounds, and on the concrete two-entry cache the evicted entry is the
chronologically older one. -/
theorem claim_C8_witness :
    (applySets c7hash { ttl := 30, max_entries := 2 }
      [c8op 1 "a", c8op 2 "b", c8op 3 "c"]).cache.length ≤ 2 ∧
    ("k1", c8elem 1) ∈ c8ec.cache ∧
    ("k1", c8elem 1) ∉ (evictOldest c8ec).cache ∧
    ("k2", c8elem 2) ∈ (evictOldest c8ec).cache ∧
    ("k1", c8elem 1).2.cached_at ≤ ("k2", c8elem 2).2.cached_at :=
  ⟨(claim_C8 c7hash 30 2 [c8op 1 "a", c8op 2 "b", c8op 3 "c"]
      (by omega)).1,
   by decide, by decide, by decide,
   (claim_C8 c7hash 30 2 [] (by omega)).2 c8ec (by decide)
     ("k1", c8elem 1) (by decide) (by decide) ("k2", c8elem 2) (by decide)⟩

/-- The gate state after one request_approval call on a fresh gate. -/
def c1s1 : ConciousPause := (request_approval ⟨[], [], 0⟩ "pay_bill" []).1

/-- That state after a manual approve of the request. -/
def c1s2 : ConciousPause := (approve c1s1 "APR-0001").1

/-- Counterexample to C1: after the manual approve call the request carries
the terminal status Approved yet still sits in the pending map with an empty
history — it was not moved to history at that instant — and a subsequent
manual reject overwrites the recorded decision. -/
theorem claim_C1_counterexample :
    ((findVal "APR-0001" c1s2.pending_requests).map (·.status) =
      some ApprovalStatus.approved) ∧
    c1s2.approval_history = [] ∧
    ((findVal "APR-0001"
        ((reject c1s2 "APR-0001").1).pending_requests).map (·.status) =
      some ApprovalStatus.rejected) := by
  refine ⟨?_, ?_, ?_⟩ <;> decide

/-- Claim C1 (amended): the wait-for-approval resolution path assigns a
terminal status and atomically moves the request from the pending map to the
history list, and resolving an id that is no longer pending is a no-op that
returns False without raising; but the manual approve(id)/reject(id) calls
only set a terminal status on the still-pending request in place — the
request is not moved to history at that instant, and a second manual call
before wait_for_approval completes can overwrite the recorded decision. -/
theorem claim_C1_amended (cp : ConciousPause) (req : ApprovalRequest)
    (outcome : WaitOutcome) (rid : String) :
    ((wait_for_approval cp req outcome).2 ≠ .pending ∧
      { req with status := (wait_for_approval cp req outcome).2 } ∈
        (wait_for_approval cp req outcome).1.approval_history ∧
      ((cp.pending_requests.map Prod.fst).Nodup →
        findVal req.id
          (wait_for_approval cp req outcome).1.pending_requests = none)) ∧
    (findVal rid cp.pending_requests = none →
      approve cp rid = (cp, false) ∧ reject cp rid = (cp, false)) ∧
    (∀ r, findVal rid cp.pending_requests = some r →
      (approve cp rid).1.pending_requests =
        pyDictInsert rid { r with status := .approved } cp.pending_requests ∧
      (approve cp rid).1.approval_history = cp.approval_history ∧
      (approve cp rid).2 = true) := by
  refine ⟨⟨?_, ?_, ?_⟩, fun hnone => ⟨?_, ?_⟩, fun r hsome => ?_⟩
  · cases outcome <;> simp [wait_for_approval]
  · cases outcome <;> simp [wait_for_approval]
  · intro hnd
    cases outcome <;>
      exact findVal_eraseKey_self req.id cp.pending_requests hnd
  · simp [approve, hnone]
  · simp [reject, hnone]
  · refine ⟨?_, ?_, ?_⟩ <;> simp [approve, hsome]

/-- A concrete pending request and gate state for the C1 witness. -/
def c1req : ApprovalRequest := ⟨"APR-0001", "pay_bill", [], "high", .pending⟩

/-- A gate holding exactly that pending request. -/
def c1cp : ConciousPause := ⟨[("APR-0001", c1req)], [], 1⟩

/-- Witness for C1 (amended): on the concrete one-request gate, the wait path
moves the request to history and clears it from pending; approve of an
unknown id is a no-op; approve of the pending id rewrites only its status. -/
theorem claim_C1_witness :
    ((wait_for_approval c1cp c1req .timedOut).2 ≠ .pending ∧
      { c1req with status := (wait_for_approval c1cp c1req .timedOut).2 } ∈
        (wait_for_approval c1cp c1req .timedOut).1.approval_history ∧
      findVal "APR-0001"
        (wait_for_approval c1cp c1req .timedOut).1.pending_requests = none) ∧
    (approve c1cp "APR-9999" = (c1cp, false) ∧
      reject c1cp "APR-9999" = (c1cp, false)) ∧
    ((approve c1cp "APR-0001").1.pending_requests =
        pyDictInsert "APR-0001" { c1req with status := .approved }
          c1cp.pending_requests ∧
      (approve c1cp "APR-0001").1.approval_history =
        c1cp.approval_history ∧
      (approve c1cp "APR-0001").2 = true) :=
  have h := claim_C1_amended c1cp c1req .timedOut "APR-9999"
  have h1 := claim_C1_amended c1cp c1req .timedOut "APR-0001"
  ⟨⟨h.1.1, h.1.2.1, h.1.2.2 (by decide)⟩,
    h.2.1 (by decide),
    h1.2.2 c1req (by decide)⟩

/-- Claim C2: the executed task ends Completed or Failed; Completed means
every step is Completed; Failed means the steps split as completed prefix,
one failed step, and an untouched (still pending) tail — no step after the
first failure ever ran. -/
theorem claim_C2 (exec : TaskStep → ExecOutcome) (task : Task)
    (hpend : ∀ s ∈ task.steps, s.status = .pending) :
    ((execute_task exec task).status = .completed ∨
      (execute_task exec task).status = .failed) ∧
    ((execute_task exec task).status = .completed →
      ∀ s ∈ (execute_task exec task).steps, s.status = .completed) ∧
    ((execute_task exec task).status = .failed →
      ∃ pre s post, (execute_task exec task).steps = pre ++ s :: post ∧
        (∀ p ∈ pre, p.status = .completed) ∧ s.status = .failed ∧
        (∀ p ∈ post, p.status = .pending)) := by
  have hspec : ∀ (steps : List TaskStep) (counter : Nat),
      (∀ s ∈ steps, s.status = .pending) →
      ((runSteps exec steps counter).2.1 = none ∧
        ∀ s ∈ (runSteps exec steps counter).1, s.status = .completed) ∨
      ((runSteps exec steps counter).2.1 = some .failed ∧
        ∃ pre s post, (runSteps exec steps counter).1 = pre ++ s :: post ∧
          (∀ p ∈ pre, p.status = .completed) ∧ s.status = .failed ∧
          ∀ p ∈ post, p.status = .pending) := by
    intro steps
    induction steps with
    | nil => intro counter _; left; simp [runSteps]
    | cons step rest ih =>
        intro counter hp
        have hprest : ∀ s ∈ rest, s.status = .pending :=
          fun s hs => hp s (by simp [hs])
        cases hex : exec { step with status := TaskStatus.in_progress } with
        | res r =>
            cases hs : r.success
            · right
              simp only [runSteps, hex, hs]
              simp only [Bool.false_eq_true, if_false]
              exact ⟨trivial, [],
                ⟨step.id, step.action, step.parameters, TaskStatus.failed,
                  some r, some r.message⟩, rest, rfl,
                fun p hp0 => absurd hp0 (List.not_mem_nil p), rfl, hprest⟩
            · rcases ih (counter + 1) hprest with ⟨h1, h2⟩ | ⟨h1, h2⟩
              · left
                simp only [runSteps, hex, hs, if_true]
                refine ⟨h1, ?_⟩
                intro s hsm
                rcases List.mem_cons.mp hsm with h | h
                · subst h; rfl
                · exact h2 s h
              · right
                simp only [runSteps, hex, hs, if_true]
                obtain ⟨pre, s, post, heq, hpre, hsf, hpost⟩ := h2
                refine ⟨h1,
                  ⟨step.id, step.action, step.parameters,
                    TaskStatus.completed, some r, step.error⟩ :: pre,
                  s, post, by rw [heq]; rfl, ?_, hsf, hpost⟩
                intro p hpm
                rcases List.mem_cons.mp hpm with h | h
                · subst h; rfl
                · exact hpre p h
        | exn m =>
            right
            simp only [runSteps, hex]
            exact ⟨trivial, [],
              ⟨step.id, step.action, step.parameters, TaskStatus.failed,
                step.result, some m⟩, rest, rfl,
              fun p hp0 => absurd hp0 (List.not_mem_nil p), rfl, hprest⟩
  rcases hspec task.steps task.current_step hpend with ⟨h1, h2⟩ | ⟨h1, h2⟩
  · have hst : (execute_task exec task).status = .completed := by
      simp [execute_task, h1]
    refine ⟨Or.inl hst, fun _ => ?_, fun hf => absurd hf (by simp [hst])⟩
    simpa [execute_task] using h2
  · have hst : (execute_task exec task).status = .failed := by
      simp [execute_task, h1]
    refine ⟨Or.inr hst, fun hc => absurd hc (by simp [hst]), fun _ => ?_⟩
    simpa [execute_task] using h2

/-- The delegate for the C2 witness: step 2 fails, all others succeed. -/
def c2exec : TaskStep → ExecOutcome := fun s =>
  if s.id = 2 then .res ⟨false, "boom"⟩ else .res ⟨true, "ok"⟩

/-- A fresh three-step task. -/
def c2task : Task :=
  { id := "TASK-0001", original_command := "pay my bill",
    steps := [⟨1, "login", [], .pending, none, none⟩,
      ⟨2, "pay_bill", [], .pending, none, none⟩,
      ⟨3, "confirm_with_approval", [], .pending, none, none⟩] }

/-- Witness for C2: the concrete run fails at step 2 and decomposes into a
completed prefix, the failed step, and a pending tail. -/
theorem claim_C2_witness :
    (execute_task c2exec c2task).status = .failed ∧
    (∃ pre s post, (execute_task c2exec c2task).steps = pre ++ s :: post ∧
      (∀ p ∈ pre, p.status = .completed) ∧ s.status = .failed ∧
      (∀ p ∈ post, p.status = .pending)) :=
  ⟨by decide, (claim_C2 c2exec c2task (by decide)).2.2 (by decide)⟩

end FinAgent
